import Mathlib

/-!
Shallow embedding of the `serverless-offline-sqs-invoke` plugin
(`src/index.js`, TypeScript original in the repository).

The plugin has two parts:
* a resolver (`start`) that scans the declared CloudFormation resources and
  the function definitions and builds `queueHandlers`, a map from queue name
  to the (optional) handler function name;
* a gateway (`startHttp` / `onMessage`) that accepts `SendMessage` HTTP
  requests, validates them, and forwards the message to the local Lambda
  endpoint as a single-record SQS event batch.

State is modelled by explicit passing: the JS object `queueHandlers` becomes
an insertion-ordered association list, log calls become an explicit log list,
and a thrown JS exception becomes `Except.error`.
-/

namespace OfflineSqsInvoke

/-! ### JavaScript string splitting

`s.split(sep)` for a one-character separator, on the character list of the
string.  JS `split` always returns a non-empty array (`"".split(c) = [""]`),
so `.at(-1)` on its result is always defined. -/

def splitChar (sep : Char) : List Char → List (List Char)
  | [] => [[]]
  | c :: cs =>
    if c = sep then
      [] :: splitChar sep cs
    else
      match splitChar sep cs with
      | [] => [[c]]
      | r :: rs => (c :: r) :: rs

theorem splitChar_ne_nil (sep : Char) (l : List Char) : splitChar sep l ≠ [] := by
  cases l with
  | nil => simp [splitChar]
  | cons c cs =>
    simp only [splitChar]
    split
    · simp
    · split <;> simp

/-- Last segment `s.split(sep).at(-1)` of a JS split, on strings.
Total because a JS split result is never empty. -/
def lastSegment (sep : Char) (s : String) : String :=
  String.mk ((splitChar sep s.data).getLast (splitChar_ne_nil sep s.data))

/-- Modelled from the spec's words for comparison with `lastSegment`: the
trailing segment of a string after the last occurrence of the separator (the
whole string when the separator does not occur). -/
def trailingSegment (sep : Char) (s : String) : String :=
  String.mk ((s.data.reverse.takeWhile (· != sep)).reverse)

/-! ### Configuration input (serverless.yml, as delivered by the framework) -/

/-- Properties bag of a CloudFormation resource; the plugin only reads the
`QueueName` property (`none` = property absent). -/
structure ResourceProperties where
  queueName : Option String
deriving DecidableEq, Repr

/-- A CloudFormation resource: a `Type` tag and an optional `Properties` bag. -/
structure Resource where
  type : String
  properties : Option ResourceProperties
deriving DecidableEq, Repr

/-- The `arn` field of an `sqs` event: either a literal string, an object
carrying an `Fn::GetAtt` list, or any other object shape. -/
inductive SqsArn where
  | str (arn : String)
  | getAtt (parts : List String)
  | otherObject
deriving DecidableEq, Repr

/-- One entry of a function's `events` list; `sqs = none` models an event
object without an `sqs` property. -/
structure Event where
  sqs : Option SqsArn
deriving DecidableEq, Repr

/-- A function definition: an optional `name` and an optional `events` list
(the configuration interface declares the event list optional; iterating an
absent list throws in JS). -/
structure FunctionDefinition where
  name : Option String
  events : Option (List Event)
deriving DecidableEq, Repr

/-! ### The handler map and the log -/

/-- The map `queueHandlers : Record<string, string | null>`, as an insertion-ordered
association list; the value `none` is JS `null` (queue registered, no
handler assigned yet). -/
abbrev HandlerMap := List (String × Option String)

/-- Property test `map.hasOwnProperty(k)`. -/
def hasOwnProperty (m : HandlerMap) (k : String) : Bool :=
  m.any fun e => e.1 = k

/-- Read `map[k]` as a JS property read: `none` when the key is absent
(`undefined`), otherwise the stored value (possibly JS `null` = `none`
inside). -/
def getProp (m : HandlerMap) (k : String) : Option (Option String) :=
  (m.find? fun e => e.1 = k).map Prod.snd

/-- Write `map[k] = v` on a present key: update in place, keys unchanged. -/
def setProp (m : HandlerMap) (k : String) (v : Option String) : HandlerMap :=
  m.map fun e => if e.1 = k then (e.1, v) else e

/-- Number of entries of the handler map holding a given key. -/
def countKey (m : HandlerMap) (k : String) : Nat :=
  (m.filter fun e => e.1 = k).length

/-- Severity of a log line. -/
inductive LogLevel where
  | notice
  | warning
  | error
deriving DecidableEq, Repr

/-- One log call of the plugin, with the values interpolated into the
message. -/
inductive LogEntry where
  /-- error: `Queue '<name>' is missing QueueName property` -/
  | queueMissingQueueName (resourceName : String)
  /-- warning: `Found multiple queues with name: '<q>'. Only using first definition.` -/
  | multipleQueues (queueName : String)
  /-- error: `Unknown resource: <name>` -/
  | unknownResource (resourceName : String)
  /-- error: `Resource '<name>' is missing QueueName property` -/
  | resourceMissingQueueName (resourceName : String)
  /-- error: `Unknown SQS ARN format: <arn>` -/
  | unknownArnFormat (arn : SqsArn)
  /-- warning: `Unknown SQS queue '<q>' for function '<f>'` -/
  | unknownQueueForFunction (queueName functionKey : String)
  /-- warning: `Queue '<q>' already has handler configured. Only using <h>.` -/
  | queueHasHandler (queueName existingHandler : String)
  /-- notice: summary line `* <q>: <h>` -/
  | queueSummary (queueName : String) (handler : Option String)
  /-- warning: `Received SQS request without Action` -/
  | missingAction
  /-- warning: `Received unsupported SQS action: <a>` -/
  | unsupportedAction (action : String)
  /-- warning: `Missing QueueURL in SQS payload` -/
  | missingQueueUrl
  /-- warning: `Missing MessageBody in SQS payload` -/
  | missingMessageBody
  /-- warning: `Missing queue name in queue url: <u>` -/
  | missingQueueName (queueUrl : String)
  /-- warning: `Unknown queue name: <q>` -/
  | unknownQueueName (queueName : String)
  /-- notice: `Invoking function '<h>' from queue '<q>'` -/
  | invokingFunction (handler : Option String) (queueName : String)
  /-- error: `Error while invoking Lambda: <response>` -/
  | invokeError
deriving DecidableEq, Repr

/-- Severity of each log call, matching `log.notice` / `log.warning` /
`log.error` in the source. -/
def LogEntry.level : LogEntry → LogLevel
  | .queueMissingQueueName _ => .error
  | .multipleQueues _ => .warning
  | .unknownResource _ => .error
  | .resourceMissingQueueName _ => .error
  | .unknownArnFormat _ => .error
  | .unknownQueueForFunction _ _ => .warning
  | .queueHasHandler _ _ => .warning
  | .queueSummary _ _ => .notice
  | .missingAction => .warning
  | .unsupportedAction _ => .warning
  | .missingQueueUrl => .warning
  | .missingMessageBody => .warning
  | .missingQueueName _ => .warning
  | .unknownQueueName _ => .warning
  | .invokingFunction _ _ => .notice
  | .invokeError => .error

/-- Mutable plugin state during resolution: the handler map plus the log
produced so far. -/
structure ResolveState where
  queueHandlers : HandlerMap
  log : List LogEntry
deriving DecidableEq, Repr

/-! ### Resolver: queue registration pass (first loop of `start`) -/

/-- One iteration of the resource loop of `start` (lines 48–66 of the TS
source): skip non-queue resources, report a missing `QueueName`, warn on a
duplicate queue name keeping the first registration, otherwise register the
queue with handler `null`. -/
def registerQueue (st : ResolveState) (entry : String × Resource) : ResolveState :=
  if entry.2.type ≠ "AWS::SQS::Queue" then
    st
  else
    match entry.2.properties with
    | none => { st with log := st.log ++ [.queueMissingQueueName entry.1] }
    | some props =>
      match props.queueName with
      | none => { st with log := st.log ++ [.queueMissingQueueName entry.1] }
      | some queueName =>
        if hasOwnProperty st.queueHandlers queueName then
          { st with log := st.log ++ [.multipleQueues queueName] }
        else
          { st with queueHandlers := st.queueHandlers ++ [(queueName, none)] }

/-! ### Resolver: function binding pass (second loop of `start`) -/

/-- Lookup `resources[name]` on the resources record. -/
def lookupResource (resources : List (String × Resource)) (n : String) : Option Resource :=
  (resources.find? fun e => e.1 = n).map Prod.snd

/-- Outcome of resolving an `sqs.arn` reference to a queue name; the failure
constructors record which error branch of the source fired. -/
inductive ArnResolution where
  | ok (queueName : String)
  | unknownResource (resourceName : String)
  | missingQueueName (resourceName : String)
  | unknownFormat (arn : SqsArn)
deriving DecidableEq, Repr

/-- Resolution of `sqs.arn` to a queue name (lines 84–105 of the TS source):
a literal string yields its trailing `:`-segment; a two-element
`Fn::GetAtt [name, "Arn"]` is looked up among the resources and must carry a
`QueueName` property; every other shape is an unknown format. -/
def resolveArn (resources : List (String × Resource)) (arn : SqsArn) : ArnResolution :=
  match arn with
  | .str s => .ok (lastSegment ':' s)
  | .getAtt parts =>
    match parts with
    | [resourceName, attr] =>
      if attr = "Arn" then
        match lookupResource resources resourceName with
        | none => .unknownResource resourceName
        | some resource =>
          match resource.properties with
          | none => .missingQueueName resourceName
          | some props =>
            match props.queueName with
            | none => .missingQueueName resourceName
            | some queueName => .ok queueName
      else
        .unknownFormat arn
    | _ => .unknownFormat arn
  | .otherObject => .unknownFormat arn

/-- One iteration of the event loop of `start` (lines 75–118): skip events
without `sqs`, resolve the ARN (logging the matching error on failure), then
assign the function as handler only when the queue is registered and still
unassigned, warning otherwise. -/
def processEvent (resources : List (String × Resource)) (functionKey functionName : String)
    (st : ResolveState) (event : Event) : ResolveState :=
  match event.sqs with
  | none => st
  | some arn =>
    match resolveArn resources arn with
    | .unknownResource n => { st with log := st.log ++ [.unknownResource n] }
    | .missingQueueName n => { st with log := st.log ++ [.resourceMissingQueueName n] }
    | .unknownFormat a => { st with log := st.log ++ [.unknownArnFormat a] }
    | .ok queueName =>
      if ¬ hasOwnProperty st.queueHandlers queueName then
        { st with log := st.log ++ [.unknownQueueForFunction queueName functionKey] }
      else
        match getProp st.queueHandlers queueName with
        | some (some existing) =>
          { st with log := st.log ++ [.queueHasHandler queueName existing] }
        | _ =>
          { st with queueHandlers := setProp st.queueHandlers queueName (some functionName) }

/-- One iteration of the function loop of `start` (lines 70–119): skip
definitions without a `name`; iterate the events.  `for … of` over an absent
`events` list throws a `TypeError`, modelled as `Except.error`. -/
def processFunction (resources : List (String × Resource)) (st : ResolveState)
    (entry : String × FunctionDefinition) : Except Unit ResolveState :=
  match entry.2.name with
  | none => .ok st
  | some functionName =>
    match entry.2.events with
    | none => .error ()
    | some events => .ok (events.foldl (processEvent resources entry.1 functionName) st)

/-- The resolver `start` (lines 37–126): absent `resources` returns early
with an empty map; otherwise register the queues, process every function
definition, and emit the per-queue summary notices. -/
def start (resources : Option (List (String × Resource)))
    (functions : List (String × FunctionDefinition)) : Except Unit ResolveState :=
  match resources with
  | none => .ok ⟨[], []⟩
  | some rs =>
    let registered := rs.foldl registerQueue ⟨[], []⟩
    (functions.foldlM (processFunction rs) registered).map fun st =>
      { st with log := st.log ++ st.queueHandlers.map fun e => .queueSummary e.1 e.2 }

/-- A queue name that was genuinely declared: some resource entry of queue
type carries it as its `QueueName` property. -/
def declaredQueueName (resources : List (String × Resource)) (q : String) : Prop :=
  ∃ e ∈ resources, e.2.type = "AWS::SQS::Queue" ∧
    ∃ p, e.2.properties = some p ∧ p.queueName = some q

/-! ### Gateway: request body, invocation payload, dispatch -/

/-- A JS string-or-absent field is falsy when absent (`undefined`) or the
empty string. -/
def optFalsy : Option String → Bool
  | none => true
  | some s => s = ""

/-- The form-encoded request body fields read by the plugin. -/
structure SqsBody where
  Action : Option String
  QueueUrl : Option String
  MessageBody : Option String
deriving DecidableEq, Repr

/-- One record of the synthetic SQS event batch (lines 193–203). -/
structure SqsRecord where
  messageId : String
  receiptHandle : String
  body : String
  attributes : List (String × String)
  messageAttributes : List (String × String)
  md5OfBody : String
  eventSource : String
  eventSourceARN : String
  awsRegion : String
deriving DecidableEq, Repr

/-- The JSON payload of the Lambda invocation. -/
structure SqsPayload where
  Records : List SqsRecord
deriving DecidableEq, Repr

/-- One `InvokeCommand` sent to the Lambda client: the target function name
(the raw handler-map value, which the source casts to `string`) and the
payload. -/
structure Invocation where
  FunctionName : Option String
  Payload : SqsPayload
deriving DecidableEq, Repr

/-- Outcome of `lambdaClient.send`: either a resolved response carrying an
optional `StatusCode`, or a rejected promise (a thrown communication
error). -/
inductive InvokeResult where
  | response (StatusCode : Option Nat)
  | thrown
deriving DecidableEq, Repr

deriving instance DecidableEq for Except

/-- Everything observable about one `onMessage` call: the handler map
afterwards, the returned boolean (`Except.error` when an exception escapes
`onMessage`), the invocation calls made, and the log lines written. -/
structure DispatchResult where
  queueHandlers : HandlerMap
  result : Except Unit Bool
  invocations : List Invocation
  log : List LogEntry
deriving DecidableEq, Repr

/-- Dispatch `onMessage` (lines 162–222): validate `QueueUrl` and
`MessageBody` (falsy test), derive the queue name as the last `/`-segment of
the URL, require the queue in the handler map, then build the single-record
envelope and invoke.  Only a resolved non-200 status is caught and logged;
a rejected send propagates out as an exception (`Except.error`). -/
def onMessage (queueHandlers : HandlerMap) (body : SqsBody)
    (invokeResult : InvokeResult) : DispatchResult :=
  if optFalsy body.QueueUrl then
    ⟨queueHandlers, .ok false, [], [.missingQueueUrl]⟩
  else if optFalsy body.MessageBody then
    ⟨queueHandlers, .ok false, [], [.missingMessageBody]⟩
  else
    let queueUrl := body.QueueUrl.getD ""
    let messageBody := body.MessageBody.getD ""
    let queueName := lastSegment '/' queueUrl
    if queueName = "" then
      ⟨queueHandlers, .ok false, [], [.missingQueueName queueUrl]⟩
    else if ¬ hasOwnProperty queueHandlers queueName then
      ⟨queueHandlers, .ok false, [], [.unknownQueueName queueName]⟩
    else
      let handler := (getProp queueHandlers queueName).getD none
      let record : SqsRecord :=
        { messageId := "00000000-0000-0000-0000-000000000000"
          receiptHandle := ""
          body := messageBody
          attributes := []
          messageAttributes := []
          md5OfBody := ""
          eventSource := "aws:sqs"
          eventSourceARN := "arn:aws:sqs:localhost:000000000000:" ++ queueName
          awsRegion := "localhost" }
      let invocation : Invocation := ⟨handler, ⟨[record]⟩⟩
      let lg := [.invokingFunction handler queueName]
      match invokeResult with
      | .thrown => ⟨queueHandlers, .error (), [invocation], lg⟩
      | .response sc =>
        if sc ≠ some 200 then
          ⟨queueHandlers, .ok false, [invocation], lg ++ [.invokeError]⟩
        else
          ⟨queueHandlers, .ok true, [invocation], lg⟩

/-- An HTTP response produced by the POST handler: status code, optional
`Content-Type` override, optional body text (`none` = `send()` without
argument). -/
structure HttpResponse where
  status : Nat
  contentType : Option String
  body : Option String
deriving DecidableEq, Repr

/-- Everything observable about one POST request: the response
(`Except.error` when the handler's promise rejects and no response is
sent), the handler map afterwards, the invocation calls, the log. -/
structure GatewayResult where
  response : Except Unit HttpResponse
  queueHandlers : HandlerMap
  invocations : List Invocation
  log : List LogEntry
deriving DecidableEq, Repr

/-- The `POST /` handler of `startHttp` (lines 131–155): reject a falsy
`Action` (`request.body?.Action`, so an absent body also lands here), reject
any action other than `SendMessage`, then delegate to `onMessage`, mapping
`false` to an empty 400 and `true` to the XML acknowledgement. -/
def handlePost (queueHandlers : HandlerMap) (reqBody : Option SqsBody)
    (invokeResult : InvokeResult) : GatewayResult :=
  match reqBody with
  | none =>
    ⟨.ok ⟨400, none, some "Missing Action query parameter"⟩, queueHandlers, [], [.missingAction]⟩
  | some body =>
    if optFalsy body.Action then
      ⟨.ok ⟨400, none, some "Missing Action query parameter"⟩, queueHandlers, [], [.missingAction]⟩
    else if body.Action ≠ some "SendMessage" then
      ⟨.ok ⟨400, none, some "Only SendMessage actions are supported"⟩, queueHandlers, [],
        [.unsupportedAction (body.Action.getD "")]⟩
    else
      let d := onMessage queueHandlers body invokeResult
      match d.result with
      | .error e => ⟨.error e, d.queueHandlers, d.invocations, d.log⟩
      | .ok false => ⟨.ok ⟨400, none, none⟩, d.queueHandlers, d.invocations, d.log⟩
      | .ok true =>
        ⟨.ok ⟨200, some "text/xml", some "<SendMessageResponse></SendMessageResponse>"⟩,
          d.queueHandlers, d.invocations, d.log⟩

/-! ### Lemmas about `splitChar` and trailing segments -/

theorem splitChar_of_not_mem {sep : Char} {l : List Char} (h : sep ∉ l) :
    splitChar sep l = [l] := by
  induction l with
  | nil => rfl
  | cons c cs ih =>
    rw [List.mem_cons, not_or] at h
    have hc : ¬ (c = sep) := fun hc => h.1 hc.symm
    simp [splitChar, hc, ih h.2]

theorem two_le_length_splitChar {sep : Char} {l : List Char} (h : sep ∈ l) :
    2 ≤ (splitChar sep l).length := by
  induction l with
  | nil => cases h
  | cons c cs ih =>
    by_cases hc : c = sep
    · have h1 : (splitChar sep cs).length ≠ 0 := by
        simpa [List.length_eq_zero] using splitChar_ne_nil sep cs
      simp only [splitChar, if_pos hc, List.length_cons]
      omega
    · have hcs : sep ∈ cs := by
        rcases List.mem_cons.mp h with h1 | h1
        · exact absurd h1.symm hc
        · exact h1
      have h2 := ih hcs
      simp only [splitChar, if_neg hc]
      cases hsp : splitChar sep cs with
      | nil => exact absurd hsp (splitChar_ne_nil sep cs)
      | cons r rs => rw [hsp] at h2; simpa using h2

theorem takeWhile_concat_of_neg {p : Char → Bool} {c : Char} (hpc : p c = false) :
    ∀ xs : List Char, (xs ++ [c]).takeWhile p = xs.takeWhile p
  | [] => by simp [hpc]
  | x :: xs => by
    rw [List.cons_append, List.takeWhile_cons, List.takeWhile_cons]
    cases hx : p x
    · rfl
    · rw [takeWhile_concat_of_neg hpc xs]

theorem takeWhile_append_of_failing {p : Char → Bool} {l₁ l₂ : List Char} {a : Char}
    (ha : a ∈ l₁) (hpa : p a = false) : (l₁ ++ l₂).takeWhile p = l₁.takeWhile p := by
  induction l₁ with
  | nil => cases ha
  | cons x xs ih =>
    rw [List.cons_append, List.takeWhile_cons, List.takeWhile_cons]
    cases hx : p x
    · rfl
    · have hxs : a ∈ xs := by
        rcases List.mem_cons.mp ha with rfl | h
        · rw [hx] at hpa; cases hpa
        · exact h
      rw [ih hxs]

theorem getLast?_splitChar (sep : Char) (l : List Char) :
    (splitChar sep l).getLast? = some ((l.reverse.takeWhile (· != sep)).reverse) := by
  induction l with
  | nil => rfl
  | cons c cs ih =>
    by_cases hc : c = sep
    · have hpc : (c != sep) = false := by simp [hc]
      have hstep : ((c :: cs).reverse.takeWhile (· != sep)).reverse
          = (cs.reverse.takeWhile (· != sep)).reverse := by
        rw [List.reverse_cons,
          takeWhile_concat_of_neg (p := fun x => x != sep) hpc cs.reverse]
      rw [hstep, ← ih]
      simp only [splitChar, if_pos hc]
      cases hsp : splitChar sep cs with
      | nil => exact absurd hsp (splitChar_ne_nil sep cs)
      | cons r rs => rw [List.getLast?_cons_cons]
    · simp only [splitChar, if_neg hc]
      cases hsp : splitChar sep cs with
      | nil => exact absurd hsp (splitChar_ne_nil sep cs)
      | cons r rs =>
        cases rs with
        | nil =>
          have hnm : sep ∉ cs := by
            intro hmem
            have := two_le_length_splitChar hmem
            rw [hsp] at this
            simp at this
          have hr : r = cs := by
            rw [splitChar_of_not_mem hnm] at hsp
            injection hsp with h1 _
            exact h1.symm
          have hall : ∀ a ∈ (c :: cs).reverse, (a != sep) = true := by
            intro a hmem
            rw [List.mem_reverse, List.mem_cons] at hmem
            rcases hmem with rfl | hmem
            · simpa using hc
            · simp only [bne_iff_ne, ne_eq]
              intro heq
              exact hnm (heq ▸ hmem)
          rw [List.takeWhile_eq_self_iff.mpr hall, List.reverse_reverse]
          simp [hr]
        | cons r' rs' =>
          have hmem : sep ∈ cs := by
            by_contra hnm
            rw [splitChar_of_not_mem hnm] at hsp
            injection hsp with _ h2
            exact (List.cons_ne_nil r' rs') h2.symm
          have hrev : sep ∈ cs.reverse := List.mem_reverse.mpr hmem
          have hps : ((sep : Char) != sep) = false := by simp
          have hstep : ((c :: cs).reverse.takeWhile (· != sep)).reverse
              = (cs.reverse.takeWhile (· != sep)).reverse := by
            rw [List.reverse_cons,
              takeWhile_append_of_failing (p := fun x => x != sep) hrev hps]
          rw [hstep, ← ih, hsp, List.getLast?_cons_cons, List.getLast?_cons_cons]

theorem lastSegment_eq_trailingSegment (sep : Char) (s : String) :
    lastSegment sep s = trailingSegment sep s := by
  have h1 := List.getLast?_eq_getLast (splitChar sep s.data) (splitChar_ne_nil sep s.data)
  have h2 := getLast?_splitChar sep s.data
  rw [h1] at h2
  unfold lastSegment trailingSegment
  rw [Option.some_inj.mp h2]

/-! ### Lemmas about the handler map -/

theorem getProp_cons_pos (e : String × Option String) (es : HandlerMap) (j : String)
    (h : e.1 = j) : getProp (e :: es) j = some e.2 := by
  unfold getProp
  rw [List.find?_cons_of_pos _ (by simpa using h)]
  rfl

theorem getProp_cons_neg (e : String × Option String) (es : HandlerMap) (j : String)
    (h : ¬ e.1 = j) : getProp (e :: es) j = getProp es j := by
  unfold getProp
  rw [List.find?_cons_of_neg _ (by simpa using h)]

theorem setProp_cons (e : String × Option String) (es : HandlerMap) (k : String)
    (v : Option String) :
    setProp (e :: es) k v = (if e.1 = k then (e.1, v) else e) :: setProp es k v := by
  unfold setProp
  rw [List.map_cons]

theorem hasOwnProperty_eq_isSome_getProp (m : HandlerMap) (k : String) :
    hasOwnProperty m k = (getProp m k).isSome := by
  induction m with
  | nil => rfl
  | cons e es ih =>
    by_cases he : e.1 = k
    · rw [getProp_cons_pos e es k he]
      simp [hasOwnProperty, he]
    · rw [getProp_cons_neg e es k he, ← ih]
      simp [hasOwnProperty, he]

theorem hasOwnProperty_append (m₁ m₂ : HandlerMap) (k : String) :
    hasOwnProperty (m₁ ++ m₂) k = (hasOwnProperty m₁ k || hasOwnProperty m₂ k) := by
  unfold hasOwnProperty
  exact List.any_append

theorem getProp_setProp_self (m : HandlerMap) (k : String) (v : Option String) :
    getProp (setProp m k v) k = (getProp m k).map fun _ => v := by
  induction m with
  | nil => rfl
  | cons e es ih =>
    by_cases he : e.1 = k
    · rw [setProp_cons, if_pos he, getProp_cons_pos e es k he,
        getProp_cons_pos (e.1, v) (setProp es k v) k he]
      rfl
    · rw [setProp_cons, if_neg he, getProp_cons_neg e es k he,
        getProp_cons_neg e (setProp es k v) k he, ih]

theorem getProp_setProp_ne (m : HandlerMap) (k j : String) (v : Option String)
    (h : j ≠ k) : getProp (setProp m k v) j = getProp m j := by
  induction m with
  | nil => rfl
  | cons e es ih =>
    by_cases he : e.1 = k
    · have hej : ¬ e.1 = j := fun hh => h (he.symm.trans hh).symm
      rw [setProp_cons, if_pos he, getProp_cons_neg e es j hej,
        getProp_cons_neg (e.1, v) (setProp es k v) j hej, ih]
    · by_cases hej : e.1 = j
      · rw [setProp_cons, if_neg he, getProp_cons_pos e es j hej,
          getProp_cons_pos e (setProp es k v) j hej]
      · rw [setProp_cons, if_neg he, getProp_cons_neg e es j hej,
          getProp_cons_neg e (setProp es k v) j hej, ih]

theorem hasOwnProperty_setProp (m : HandlerMap) (k j : String) (v : Option String) :
    hasOwnProperty (setProp m k v) j = hasOwnProperty m j := by
  by_cases h : j = k
  · subst h
    rw [hasOwnProperty_eq_isSome_getProp, hasOwnProperty_eq_isSome_getProp,
      getProp_setProp_self]
    cases getProp m j <;> rfl
  · rw [hasOwnProperty_eq_isSome_getProp, hasOwnProperty_eq_isSome_getProp,
      getProp_setProp_ne m k j v h]

theorem countKey_eq_zero (m : HandlerMap) (k : String)
    (h : hasOwnProperty m k = false) : countKey m k = 0 := by
  unfold countKey
  rw [List.length_eq_zero, List.filter_eq_nil_iff]
  intro e he
  unfold hasOwnProperty at h
  rw [← Bool.not_eq_true, List.any_eq_true] at h
  push_neg at h
  exact h e he

theorem countKey_append (m₁ m₂ : HandlerMap) (k : String) :
    countKey (m₁ ++ m₂) k = countKey m₁ k + countKey m₂ k := by
  unfold countKey
  rw [List.filter_append, List.length_append]

/-! ### Lemmas about the resolver -/

theorem registerQueue_hasKey (st : ResolveState) (e : String × Resource) (k : String)
    (h : hasOwnProperty (registerQueue st e).queueHandlers k = true) :
    hasOwnProperty st.queueHandlers k = true ∨
      (e.2.type = "AWS::SQS::Queue" ∧ ∃ p, e.2.properties = some p ∧ p.queueName = some k) := by
  unfold registerQueue at h
  split at h
  · exact Or.inl h
  · rename_i ht
    push_neg at ht
    split at h
    · exact Or.inl h
    · rename_i props hp
      split at h
      · exact Or.inl h
      · rename_i qn hq
        split at h
        · exact Or.inl h
        · rw [hasOwnProperty_append] at h
          rcases Bool.or_eq_true_iff.mp h with h1 | h1
          · exact Or.inl h1
          · have hqk : qn = k := by simpa [hasOwnProperty] using h1
            exact Or.inr ⟨ht, props, hp, hqk ▸ hq⟩

theorem foldl_registerQueue_hasKey :
    ∀ (rs : List (String × Resource)) (st : ResolveState) (k : String),
      hasOwnProperty (rs.foldl registerQueue st).queueHandlers k = true →
      hasOwnProperty st.queueHandlers k = true ∨ declaredQueueName rs k := by
  intro rs
  induction rs with
  | nil => intro st k h; exact Or.inl h
  | cons e es ih =>
    intro st k h
    rw [List.foldl_cons] at h
    rcases ih (registerQueue st e) k h with h1 | h1
    · rcases registerQueue_hasKey st e k h1 with h2 | h2
      · exact Or.inl h2
      · exact Or.inr ⟨e, List.mem_cons_self e es, h2⟩
    · obtain ⟨x, hx, hx2⟩ := h1
      exact Or.inr ⟨x, List.mem_cons_of_mem e hx, hx2⟩

theorem processEvent_hasKey (resources : List (String × Resource))
    (functionKey functionName : String) (st : ResolveState) (ev : Event) (k : String) :
    hasOwnProperty (processEvent resources functionKey functionName st ev).queueHandlers k
      = hasOwnProperty st.queueHandlers k := by
  unfold processEvent
  repeat' split
  all_goals first
    | rfl
    | exact hasOwnProperty_setProp _ _ _ _

theorem foldl_processEvent_hasKey (resources : List (String × Resource))
    (functionKey functionName : String) :
    ∀ (events : List Event) (st : ResolveState) (k : String),
      hasOwnProperty
          ((events.foldl (processEvent resources functionKey functionName) st)).queueHandlers k
        = hasOwnProperty st.queueHandlers k := by
  intro events
  induction events with
  | nil => intro st k; rfl
  | cons ev evs ih =>
    intro st k
    rw [List.foldl_cons, ih, processEvent_hasKey]

theorem processFunction_hasKey (resources : List (String × Resource))
    (st st' : ResolveState) (f : String × FunctionDefinition) (k : String)
    (h : processFunction resources st f = .ok st') :
    hasOwnProperty st'.queueHandlers k = hasOwnProperty st.queueHandlers k := by
  unfold processFunction at h
  cases hn : f.2.name with
  | none => rw [hn] at h; cases h; rfl
  | some functionName =>
    rw [hn] at h
    cases he : f.2.events with
    | none => rw [he] at h; cases h
    | some events =>
      rw [he] at h
      cases h
      rw [foldl_processEvent_hasKey]

theorem foldlM_processFunction_hasKey (resources : List (String × Resource)) :
    ∀ (fs : List (String × FunctionDefinition)) (st st' : ResolveState) (k : String),
      fs.foldlM (processFunction resources) st = .ok st' →
      hasOwnProperty st'.queueHandlers k = hasOwnProperty st.queueHandlers k := by
  intro fs
  induction fs with
  | nil => intro st st' k h; cases h; rfl
  | cons f fs ih =>
    intro st st' k h
    rw [List.foldlM_cons] at h
    cases hf : processFunction resources st f with
    | error e => rw [hf] at h; cases h
    | ok st₁ =>
      rw [hf] at h
      rw [ih st₁ st' k h, processFunction_hasKey resources st st₁ f k hf]

theorem processFunction_isOk (resources : List (String × Resource)) (st : ResolveState)
    (f : String × FunctionDefinition) (h : f.2.name = none ∨ f.2.events ≠ none) :
    ∃ st', processFunction resources st f = .ok st' := by
  unfold processFunction
  cases hn : f.2.name with
  | none => exact ⟨st, rfl⟩
  | some functionName =>
    cases he : f.2.events with
    | none =>
      rcases h with h1 | h1
      · rw [hn] at h1; cases h1
      · exact absurd he h1
    | some events =>
      exact ⟨_, rfl⟩

theorem foldlM_processFunction_isOk (resources : List (String × Resource)) :
    ∀ (fs : List (String × FunctionDefinition)) (st : ResolveState),
      (∀ f ∈ fs, f.2.name = none ∨ f.2.events ≠ none) →
      ∃ st', fs.foldlM (processFunction resources) st = .ok st' := by
  intro fs
  induction fs with
  | nil => intro st _; exact ⟨st, rfl⟩
  | cons f fs ih =>
    intro st h
    obtain ⟨st₁, h₁⟩ := processFunction_isOk resources st f (h f (List.mem_cons_self f fs))
    obtain ⟨st', h'⟩ := ih st₁ fun g hg => h g (List.mem_cons_of_mem f hg)
    refine ⟨st', ?_⟩
    rw [List.foldlM_cons, h₁]
    exact h'

/-! ### Lemmas about dispatch -/

theorem onMessage_invoke_step (m : HandlerMap) (act : Option String) (u msg : String)
    (h0 : Option String) (r : InvokeResult)
    (hu : ¬ u = "") (hmsg : ¬ msg = "")
    (hq : ¬ lastSegment '/' u = "")
    (hQ : getProp m (lastSegment '/' u) = some h0) :
    onMessage m ⟨act, some u, some msg⟩ r =
      (let queueName := lastSegment '/' u
       let invocation : Invocation :=
         ⟨h0, ⟨[{ messageId := "00000000-0000-0000-0000-000000000000",
                  receiptHandle := "", body := msg, attributes := [],
                  messageAttributes := [], md5OfBody := "", eventSource := "aws:sqs",
                  eventSourceARN := "arn:aws:sqs:localhost:000000000000:" ++ queueName,
                  awsRegion := "localhost" }]⟩⟩
       match r with
       | .thrown => ⟨m, .error (), [invocation], [.invokingFunction h0 queueName]⟩
       | .response sc =>
         if sc ≠ some 200 then
           ⟨m, .ok false, [invocation], [.invokingFunction h0 queueName, .invokeError]⟩
         else
           ⟨m, .ok true, [invocation], [.invokingFunction h0 queueName]⟩) := by
  have hk : hasOwnProperty m (lastSegment '/' u) = true := by
    rw [hasOwnProperty_eq_isSome_getProp, hQ]
    rfl
  unfold onMessage
  simp only [optFalsy, hu, hmsg, decide_False, Bool.false_eq_true, if_false, Option.getD_some,
    if_neg hq, if_neg (not_not_intro hk), hQ, List.singleton_append]


theorem handlePost_sendMessage (m : HandlerMap) (b : SqsBody) (r : InvokeResult)
    (hb : b.Action = some "SendMessage") :
    handlePost m (some b) r =
      (match (onMessage m b r).result with
       | .error e =>
         ⟨.error e, (onMessage m b r).queueHandlers, (onMessage m b r).invocations,
           (onMessage m b r).log⟩
       | .ok false =>
         ⟨.ok ⟨400, none, none⟩, (onMessage m b r).queueHandlers,
           (onMessage m b r).invocations, (onMessage m b r).log⟩
       | .ok true =>
         ⟨.ok ⟨200, some "text/xml", some "<SendMessageResponse></SendMessageResponse>"⟩,
           (onMessage m b r).queueHandlers, (onMessage m b r).invocations,
           (onMessage m b r).log⟩) := by
  simp only [handlePost, hb]
  rw [if_neg (show ¬ (optFalsy (some "SendMessage") = true) by decide),
    if_neg (not_not_intro rfl)]

theorem onMessage_missing_queueUrl (m : HandlerMap) (b : SqsBody) (r : InvokeResult)
    (h : optFalsy b.QueueUrl = true) :
    onMessage m b r = ⟨m, .ok false, [], [.missingQueueUrl]⟩ := by
  unfold onMessage
  rw [if_pos h]

theorem onMessage_missing_messageBody (m : HandlerMap) (b : SqsBody) (r : InvokeResult)
    (h1 : optFalsy b.QueueUrl = false) (h2 : optFalsy b.MessageBody = true) :
    onMessage m b r = ⟨m, .ok false, [], [.missingMessageBody]⟩ := by
  unfold onMessage
  rw [if_neg (by simp [h1]), if_pos h2]

theorem onMessage_missing_queueName (m : HandlerMap) (b : SqsBody) (r : InvokeResult)
    (h1 : optFalsy b.QueueUrl = false) (h2 : optFalsy b.MessageBody = false)
    (h3 : lastSegment '/' (b.QueueUrl.getD "") = "") :
    onMessage m b r = ⟨m, .ok false, [], [.missingQueueName (b.QueueUrl.getD "")]⟩ := by
  unfold onMessage
  simp only [if_neg (show ¬ (optFalsy b.QueueUrl = true) by simp [h1]),
    if_neg (show ¬ (optFalsy b.MessageBody = true) by simp [h2]), if_pos h3]

theorem onMessage_unknown_queue (m : HandlerMap) (b : SqsBody) (r : InvokeResult)
    (h1 : optFalsy b.QueueUrl = false) (h2 : optFalsy b.MessageBody = false)
    (h3 : ¬ lastSegment '/' (b.QueueUrl.getD "") = "")
    (h4 : hasOwnProperty m (lastSegment '/' (b.QueueUrl.getD "")) = false) :
    onMessage m b r
      = ⟨m, .ok false, [], [.unknownQueueName (lastSegment '/' (b.QueueUrl.getD ""))]⟩ := by
  unfold onMessage
  simp only [if_neg (show ¬ (optFalsy b.QueueUrl = true) by simp [h1]),
    if_neg (show ¬ (optFalsy b.MessageBody = true) by simp [h2]), if_neg h3,
    if_pos (show ¬ (hasOwnProperty m (lastSegment '/' (b.QueueUrl.getD "")) = true) by
      simp [h4])]

theorem onMessage_queueHandlers_eq (m : HandlerMap) (b : SqsBody) (r : InvokeResult) :
    (onMessage m b r).queueHandlers = m := by
  unfold onMessage
  by_cases h1 : optFalsy b.QueueUrl = true
  · rw [if_pos h1]
  · rw [if_neg h1]
    by_cases h2 : optFalsy b.MessageBody = true
    · rw [if_pos h2]
    · rw [if_neg h2]
      by_cases h3 : lastSegment '/' (b.QueueUrl.getD "") = ""
      · simp only [if_pos h3]
      · simp only [if_neg h3]
        by_cases h4 : hasOwnProperty m (lastSegment '/' (b.QueueUrl.getD "")) = true
        · simp only [if_neg (not_not_intro h4)]
          cases r with
          | thrown => rfl
          | response sc =>
            by_cases h5 : sc = some 200
            · simp only [if_neg (not_not_intro h5)]
            · simp only [if_pos h5]
        · simp only [if_pos h4]


/-- C7: for every queue-trigger binding whose reference is a literal ARN-like
string, the resolved queue name is the trailing segment after the last
separator; in particular the literal reference
`arn:aws:sqs:localhost:000000000000:orders` resolves to queue name
`orders`. -/
theorem C7_literal_reference_trailing_segment :
    (∀ (resources : List (String × Resource)) (s : String),
        resolveArn resources (.str s) = .ok (trailingSegment ':' s)) ∧
    (∀ resources : List (String × Resource),
        resolveArn resources (.str "arn:aws:sqs:localhost:000000000000:orders")
          = .ok "orders") := by
  constructor
  · intro resources s
    simp only [resolveArn]
    rw [lastSegment_eq_trailingSegment]
  · intro resources
    rfl

/-- C1 counterexample: on a valid `SendMessage` dispatch whose invocation call
throws, `onMessage` does not return `false` (the exception escapes), and the
gateway handler produces no response at all rather than a 400. -/
theorem C1_counterexample :
    (onMessage [("orders", some "handlerFn")]
        ⟨some "SendMessage", some "http://localhost:9324/orders", some "hi"⟩ .thrown).result
      = .error ()
    ∧ ¬ ((onMessage [("orders", some "handlerFn")]
        ⟨some "SendMessage", some "http://localhost:9324/orders", some "hi"⟩ .thrown).result
      = .ok false)
    ∧ (handlePost [("orders", some "handlerFn")]
        (some ⟨some "SendMessage", some "http://localhost:9324/orders", some "hi"⟩)
        .thrown).response = .error () := by
  refine ⟨?_, ?_, ?_⟩ <;> decide

/-- C1 (amended): a thrown/communication error from the invocation call is not
caught by dispatch: the exception propagates out of `onMessage` (after the one
invocation call was made) and the gateway sends no response for that request;
only a resolved non-success status is logged as an error and mapped to a
`false` return, which the gateway answers with an empty 400 response. -/
theorem C1_thrown_error_uncaught :
    ∀ (m : HandlerMap) (act : Option String) (u msg : String) (h0 : Option String),
      ¬ msg = "" → ¬ lastSegment '/' u = "" →
      getProp m (lastSegment '/' u) = some h0 →
      ((onMessage m ⟨act, some u, some msg⟩ .thrown).result = .error ()
        ∧ (onMessage m ⟨act, some u, some msg⟩ .thrown).invocations.length = 1
        ∧ (handlePost m (some ⟨some "SendMessage", some u, some msg⟩) .thrown).response
            = .error ())
      ∧ (∀ sc, ¬ sc = some 200 →
          (onMessage m ⟨act, some u, some msg⟩ (.response sc)).result = .ok false
          ∧ LogEntry.invokeError ∈ (onMessage m ⟨act, some u, some msg⟩ (.response sc)).log
          ∧ (handlePost m (some ⟨some "SendMessage", some u, some msg⟩)
              (.response sc)).response = .ok ⟨400, none, none⟩) := by
  intro m act u msg h0 hmsg hq hQ
  have hu : ¬ u = "" := fun h => hq (by rw [h]; rfl)
  have hthrow := onMessage_invoke_step m act u msg h0 .thrown hu hmsg hq hQ
  have hthrowS := onMessage_invoke_step m (some "SendMessage") u msg h0 .thrown hu hmsg hq hQ
  refine ⟨⟨?_, ?_, ?_⟩, ?_⟩
  · rw [hthrow]
  · rw [hthrow]
    rfl
  · rw [handlePost_sendMessage m _ .thrown rfl, hthrowS]
  · intro sc hsc
    have hresp := onMessage_invoke_step m act u msg h0 (.response sc) hu hmsg hq hQ
    have hrespS := onMessage_invoke_step m (some "SendMessage") u msg h0 (.response sc)
      hu hmsg hq hQ
    refine ⟨?_, ?_, ?_⟩
    · simp only [hresp, if_pos hsc]
    · simp only [hresp, if_pos hsc]
      simp
    · rw [handlePost_sendMessage m _ (.response sc) rfl, hrespS]
      simp only [if_pos hsc]

/-- C1 witness: the amended theorem applied at a concrete map, request and a
concrete non-success status. -/
theorem C1_thrown_error_uncaught_witness :
    ((onMessage [("orders", some "fn")]
        ⟨some "SendMessage", some "http://h/orders", some "hi"⟩ .thrown).result = .error ()
      ∧ (onMessage [("orders", some "fn")]
        ⟨some "SendMessage", some "http://h/orders", some "hi"⟩ .thrown).invocations.length = 1
      ∧ (handlePost [("orders", some "fn")]
        (some ⟨some "SendMessage", some "http://h/orders", some "hi"⟩) .thrown).response
          = .error ())
    ∧ ((onMessage [("orders", some "fn")]
        ⟨some "SendMessage", some "http://h/orders", some "hi"⟩ (.response (some 500))).result
          = .ok false
      ∧ LogEntry.invokeError ∈ (onMessage [("orders", some "fn")]
        ⟨some "SendMessage", some "http://h/orders", some "hi"⟩ (.response (some 500))).log
      ∧ (handlePost [("orders", some "fn")]
        (some ⟨some "SendMessage", some "http://h/orders", some "hi"⟩)
        (.response (some 500))).response = .ok ⟨400, none, none⟩) := by
  have h := C1_thrown_error_uncaught [("orders", some "fn")] (some "SendMessage")
    "http://h/orders" "hi" (some "fn") (by decide) (by decide) (by decide)
  exact ⟨h.1, h.2 (some 500) (by decide)⟩

/-- C5: a `SendMessage` POST whose queue URL resolves to a queue with an
assigned handler and whose body is non-empty yields, on a 200 invocation
response, the XML acknowledgement with XML content type, and exactly one
invocation addressed to that handler carrying the single-record batch with the
message body verbatim and the synthetic provenance fields. -/
theorem C5_send_message_success :
    ∀ (m : HandlerMap) (u msg f : String),
      ¬ msg = "" → ¬ lastSegment '/' u = "" →
      getProp m (lastSegment '/' u) = some (some f) →
      handlePost m (some ⟨some "SendMessage", some u, some msg⟩) (.response (some 200)) =
        ⟨.ok ⟨200, some "text/xml", some "<SendMessageResponse></SendMessageResponse>"⟩, m,
          [⟨some f, ⟨[{ messageId := "00000000-0000-0000-0000-000000000000",
                        receiptHandle := "", body := msg, attributes := [],
                        messageAttributes := [], md5OfBody := "", eventSource := "aws:sqs",
                        eventSourceARN := "arn:aws:sqs:localhost:000000000000:"
                          ++ lastSegment '/' u,
                        awsRegion := "localhost" }]⟩⟩],
          [.invokingFunction (some f) (lastSegment '/' u)]⟩ := by
  intro m u msg f hmsg hq hQ
  have hu : ¬ u = "" := fun h => hq (by rw [h]; rfl)
  have hstep := onMessage_invoke_step m (some "SendMessage") u msg (some f)
    (.response (some 200)) hu hmsg hq hQ
  rw [handlePost_sendMessage m _ _ rfl, hstep]
  rfl

/-- C5 witness: the success path evaluated at a concrete map and request. -/
theorem C5_send_message_success_witness :
    handlePost [("orders", some "fn")]
        (some ⟨some "SendMessage", some "http://localhost:9324/orders", some "hello"⟩)
        (.response (some 200)) =
      ⟨.ok ⟨200, some "text/xml", some "<SendMessageResponse></SendMessageResponse>"⟩,
        [("orders", some "fn")],
        [⟨some "fn", ⟨[{ messageId := "00000000-0000-0000-0000-000000000000",
                         receiptHandle := "", body := "hello", attributes := [],
                         messageAttributes := [], md5OfBody := "", eventSource := "aws:sqs",
                         eventSourceARN := "arn:aws:sqs:localhost:000000000000:orders",
                         awsRegion := "localhost" }]⟩⟩],
        [.invokingFunction (some "fn") "orders"]⟩ := by
  have h := C5_send_message_success [("orders", some "fn")] "http://localhost:9324/orders"
    "hello" "fn" (by decide) (by decide) (by decide)
  rw [h]
  decide


/-- C6: the request checks run in order with short-circuit on the first
failure, and every failing check (falsy action, unsupported action, falsy
queue URL, falsy message body, underivable queue name, queue absent from the
handler map) yields a 400 response with no invocation call made. -/
theorem C6_validation_short_circuit :
    ∀ (m : HandlerMap) (r : InvokeResult),
      (handlePost m none r = ⟨.ok ⟨400, none, some "Missing Action query parameter"⟩, m, [],
          [.missingAction]⟩)
    ∧ (∀ b : SqsBody, optFalsy b.Action = true →
        handlePost m (some b) r = ⟨.ok ⟨400, none, some "Missing Action query parameter"⟩,
          m, [], [.missingAction]⟩)
    ∧ (∀ b : SqsBody, optFalsy b.Action = false → b.Action ≠ some "SendMessage" →
        handlePost m (some b) r = ⟨.ok ⟨400, none, some "Only SendMessage actions are supported"⟩,
          m, [], [.unsupportedAction (b.Action.getD "")]⟩)
    ∧ (∀ qu mb : Option String, optFalsy qu = true →
        handlePost m (some ⟨some "SendMessage", qu, mb⟩) r
          = ⟨.ok ⟨400, none, none⟩, m, [], [.missingQueueUrl]⟩)
    ∧ (∀ qu mb : Option String, optFalsy qu = false → optFalsy mb = true →
        handlePost m (some ⟨some "SendMessage", qu, mb⟩) r
          = ⟨.ok ⟨400, none, none⟩, m, [], [.missingMessageBody]⟩)
    ∧ (∀ (u : String) (mb : Option String), ¬ u = "" → optFalsy mb = false →
        lastSegment '/' u = "" →
        handlePost m (some ⟨some "SendMessage", some u, mb⟩) r
          = ⟨.ok ⟨400, none, none⟩, m, [], [.missingQueueName u]⟩)
    ∧ (∀ (u : String) (mb : Option String), optFalsy mb = false →
        ¬ lastSegment '/' u = "" → hasOwnProperty m (lastSegment '/' u) = false →
        handlePost m (some ⟨some "SendMessage", some u, mb⟩) r
          = ⟨.ok ⟨400, none, none⟩, m, [], [.unknownQueueName (lastSegment '/' u)]⟩) := by
  intro m r
  refine ⟨rfl, ?_, ?_, ?_, ?_, ?_, ?_⟩
  · intro b hb
    simp only [handlePost]
    rw [if_pos hb]
  · intro b hb1 hb2
    simp only [handlePost]
    rw [if_neg (by simp [hb1]), if_pos hb2]
  · intro qu mb hqu
    rw [handlePost_sendMessage m _ r rfl,
      onMessage_missing_queueUrl m _ r (by simpa using hqu)]
  · intro qu mb hqu hmb
    rw [handlePost_sendMessage m _ r rfl,
      onMessage_missing_messageBody m _ r (by simpa using hqu) (by simpa using hmb)]
  · intro u mb hu0 hmb hseg
    rw [handlePost_sendMessage m _ r rfl,
      onMessage_missing_queueName m _ r (by simp [optFalsy, hu0]) (by simpa using hmb)
        (by simpa using hseg)]
    rfl
  · intro u mb hmb hseg hkey
    have hu0 : ¬ u = "" := fun h => hseg (by rw [h]; rfl)
    rw [handlePost_sendMessage m _ r rfl,
      onMessage_unknown_queue m _ r (by simp [optFalsy, hu0]) (by simpa using hmb)
        (by simpa using hseg) (by simpa using hkey)]
    rfl

/-- C6 witness: every failing check exercised at a concrete map and request,
each yielding the 400 response with no invocation. -/
theorem C6_validation_short_circuit_witness :
    (handlePost [("orders", some "fn")] none (.response (some 200))
        = ⟨.ok ⟨400, none, some "Missing Action query parameter"⟩, [("orders", some "fn")],
          [], [.missingAction]⟩)
    ∧ (handlePost [("orders", some "fn")] (some ⟨some "", some "u", some "b"⟩)
        (.response (some 200)) = ⟨.ok ⟨400, none, some "Missing Action query parameter"⟩,
          [("orders", some "fn")], [], [.missingAction]⟩)
    ∧ (handlePost [("orders", some "fn")] (some ⟨some "ReceiveMessage", some "u", some "b"⟩)
        (.response (some 200)) = ⟨.ok ⟨400, none,
          some "Only SendMessage actions are supported"⟩, [("orders", some "fn")], [],
          [.unsupportedAction "ReceiveMessage"]⟩)
    ∧ (handlePost [("orders", some "fn")] (some ⟨some "SendMessage", none, some "b"⟩)
        (.response (some 200)) = ⟨.ok ⟨400, none, none⟩, [("orders", some "fn")], [],
          [.missingQueueUrl]⟩)
    ∧ (handlePost [("orders", some "fn")] (some ⟨some "SendMessage", some "http://h/orders", some ""⟩)
        (.response (some 200)) = ⟨.ok ⟨400, none, none⟩, [("orders", some "fn")], [],
          [.missingMessageBody]⟩)
    ∧ (handlePost [("orders", some "fn")] (some ⟨some "SendMessage", some "http://h/", some "b"⟩)
        (.response (some 200)) = ⟨.ok ⟨400, none, none⟩, [("orders", some "fn")], [],
          [.missingQueueName "http://h/"]⟩)
    ∧ (handlePost [("orders", some "fn")] (some ⟨some "SendMessage", some "http://h/absent", some "b"⟩)
        (.response (some 200)) = ⟨.ok ⟨400, none, none⟩, [("orders", some "fn")], [],
          [.unknownQueueName "absent"]⟩) := by
  have h := C6_validation_short_circuit [("orders", some "fn")] (.response (some 200))
  refine ⟨h.1, ?_, ?_, ?_, ?_, ?_, ?_⟩
  · exact h.2.1 ⟨some "", some "u", some "b"⟩ (by decide)
  · exact h.2.2.1 ⟨some "ReceiveMessage", some "u", some "b"⟩ (by decide) (by decide)
  · exact h.2.2.2.1 none (some "b") (by decide)
  · exact h.2.2.2.2.1 (some "http://h/orders") (some "") (by decide) (by decide)
  · exact h.2.2.2.2.2.1 "http://h/" (some "b") (by decide) (by decide) (by decide)
  · have := h.2.2.2.2.2.2 "http://h/absent" (some "b") (by decide) (by decide) (by decide)
    rw [this]
    decide

/-- C9: dispatch never mutates the handler map (the map after `onMessage`
equals the map before), a lookup of an absent queue name fails explicitly
with no invocation and no new entry, and every key of the resolved map was
declared by some queue resource carrying it as `QueueName`. -/
theorem C9_dispatch_pure_reader :
    (∀ (m : HandlerMap) (b : SqsBody) (r : InvokeResult),
        (onMessage m b r).queueHandlers = m)
    ∧ (∀ (m : HandlerMap) (r : InvokeResult) (act : Option String) (u msg : String),
        ¬ msg = "" → ¬ lastSegment '/' u = "" →
        hasOwnProperty m (lastSegment '/' u) = false →
        onMessage m ⟨act, some u, some msg⟩ r
          = ⟨m, .ok false, [], [.unknownQueueName (lastSegment '/' u)]⟩)
    ∧ (∀ (rs : List (String × Resource)) (fs : List (String × FunctionDefinition))
        (st : ResolveState) (k : String),
        start (some rs) fs = .ok st → hasOwnProperty st.queueHandlers k = true →
        declaredQueueName rs k) := by
  refine ⟨onMessage_queueHandlers_eq, ?_, ?_⟩
  · intro m r act u msg hmsg hseg hkey
    have hu0 : ¬ u = "" := fun h => hseg (by rw [h]; rfl)
    exact onMessage_unknown_queue m _ r (by simp [optFalsy, hu0])
      (by simp [optFalsy, hmsg]) (by simpa using hseg) (by simpa using hkey)
  · intro rs fs st k hstart hkey
    simp only [start] at hstart
    cases hfold : fs.foldlM (processFunction rs) (rs.foldl registerQueue ⟨[], []⟩) with
    | error e =>
      rw [hfold] at hstart
      simp only [Except.map] at hstart
      exact Except.noConfusion hstart
    | ok st₀ =>
      rw [hfold] at hstart
      simp only [Except.map, Except.ok.injEq] at hstart
      have hkey₀ : hasOwnProperty st₀.queueHandlers k = true := by
        rw [← hstart] at hkey
        exact hkey
      rw [foldlM_processFunction_hasKey rs fs _ st₀ k hfold] at hkey₀
      rcases foldl_registerQueue_hasKey rs ⟨[], []⟩ k hkey₀ with h1 | h1
      · cases h1
      · exact h1

/-- C9 witness: the three parts applied at a concrete map, request and
configuration. -/
theorem C9_dispatch_pure_reader_witness :
    ((onMessage [("orders", some "fn")]
        ⟨some "SendMessage", some "http://h/orders", some "hi"⟩
        (.response (some 200))).queueHandlers = [("orders", some "fn")])
    ∧ (onMessage [("orders", some "fn")]
        ⟨some "SendMessage", some "http://h/absent", some "hi"⟩ (.response (some 200))
          = ⟨[("orders", some "fn")], .ok false, [], [.unknownQueueName "absent"]⟩)
    ∧ declaredQueueName [("QueueRes", ⟨"AWS::SQS::Queue", some ⟨some "orders"⟩⟩)] "orders" := by
  refine ⟨C9_dispatch_pure_reader.1 _ _ _, ?_, ?_⟩
  · have h := C9_dispatch_pure_reader.2.1 [("orders", some "fn")] (.response (some 200))
      (some "SendMessage") "http://h/absent" "hi" (by decide) (by decide) (by decide)
    rw [h]
    decide
  · exact C9_dispatch_pure_reader.2.2 [("QueueRes", ⟨"AWS::SQS::Queue", some ⟨some "orders"⟩⟩)]
      [("f", ⟨some "fn", some [⟨some (.str "a:orders")⟩]⟩)]
      ⟨[("orders", some "fn")], [.queueSummary "orders" (some "fn")]⟩ "orders"
      (by decide) (by decide)

/-- C10: a `MessageBody` field that is present but equal to the empty string
is rejected exactly like an absent one (the missing-message-body warning, a
`false` result and no invocation), and likewise a present-but-empty
`QueueUrl` field, because both checks test JS falsiness rather than
absence. -/
theorem C10_empty_fields_treated_missing :
    ∀ (m : HandlerMap) (r : InvokeResult) (act : Option String),
      (∀ u : String, ¬ u = "" →
        onMessage m ⟨act, some u, some ""⟩ r = ⟨m, .ok false, [], [.missingMessageBody]⟩)
    ∧ (∀ mb : Option String,
        onMessage m ⟨act, some "", mb⟩ r = ⟨m, .ok false, [], [.missingQueueUrl]⟩) := by
  intro m r act
  constructor
  · intro u hu
    exact onMessage_missing_messageBody m _ r (by simp [optFalsy, hu]) rfl
  · intro mb
    exact onMessage_missing_queueUrl m _ r rfl

/-- C10 witness: both empty-field rejections at a concrete map and request. -/
theorem C10_empty_fields_treated_missing_witness :
    (onMessage [("orders", some "fn")]
        ⟨some "SendMessage", some "http://h/orders", some ""⟩ (.response (some 200))
      = ⟨[("orders", some "fn")], .ok false, [], [.missingMessageBody]⟩)
    ∧ (onMessage [("orders", some "fn")]
        ⟨some "SendMessage", some "", some "b"⟩ (.response (some 200))
      = ⟨[("orders", some "fn")], .ok false, [], [.missingQueueUrl]⟩) := by
  have h := C10_empty_fields_treated_missing [("orders", some "fn")] (.response (some 200))
    (some "SendMessage")
  exact ⟨h.1 "http://h/orders" (by decide), h.2 (some "b")⟩


/-- C2 counterexample: a function definition with a name but an absent event
list makes the resolver fault (`for … of undefined` throws), so resolution is
not total over every configuration input. -/
theorem C2_counterexample :
    start (some []) [("f", ⟨some "fn", none⟩)] = .error () := by
  rfl

/-- C2 (amended): resolution is total and skips malformed entries
independently provided every named function definition carries a list of
event bindings: absent resources yield the empty map, configurations whose
named functions all have an events list resolve without fault, and a named
function with an empty events list is processed without fault and assigns
nothing; but a named function whose events list is absent faults the whole
scan. -/
theorem C2_resolution_total_when_events_present :
    (∀ fs : List (String × FunctionDefinition), start none fs = .ok ⟨[], []⟩)
    ∧ (∀ (rs : List (String × Resource)) (fs : List (String × FunctionDefinition)),
        (∀ f ∈ fs, f.2.name = none ∨ f.2.events ≠ none) →
        ∃ st, start (some rs) fs = .ok st)
    ∧ (∀ (rs : List (String × Resource)) (st : ResolveState) (k fn : String),
        processFunction rs st (k, ⟨some fn, some []⟩) = .ok st) := by
  refine ⟨fun fs => rfl, ?_, ?_⟩
  · intro rs fs h
    obtain ⟨st', h'⟩ := foldlM_processFunction_isOk rs fs (rs.foldl registerQueue ⟨[], []⟩) h
    refine ⟨{ st' with
      log := st'.log ++ st'.queueHandlers.map fun e => .queueSummary e.1 e.2 }, ?_⟩
    simp only [start]
    rw [h']
    rfl
  · intro rs st k fn
    rfl

/-- C2 witness: the amended theorem applied at concrete configurations. -/
theorem C2_resolution_total_witness :
    (start none [("f", ⟨some "fn", none⟩)] = .ok ⟨[], []⟩)
    ∧ (∃ st, start (some [("R", ⟨"AWS::SQS::Queue", some ⟨some "orders"⟩⟩)])
        [("f", ⟨some "fn", some []⟩)] = .ok st)
    ∧ (processFunction [] ⟨[("orders", none)], []⟩ ("f", ⟨some "fn", some []⟩)
        = .ok ⟨[("orders", none)], []⟩) := by
  have h := C2_resolution_total_when_events_present
  exact ⟨h.1 _, h.2.1 _ _ (by decide), h.2.2 [] ⟨[("orders", none)], []⟩ "f" "fn"⟩

/-- C3: the handler map keeps at most one handler per queue and assignment is
first-bound-wins: a binding resolving to a registered, unassigned queue
assigns that function's name (all other keys unchanged), and a later binding
resolving to the same queue is rejected with a conflict warning, preserving
the first assignment unchanged. -/
theorem C3_first_handler_wins :
    ∀ (resources : List (String × Resource)) (functionKey functionName : String)
      (st : ResolveState) (arn : SqsArn) (q : String),
      resolveArn resources arn = .ok q →
      (getProp st.queueHandlers q = some none →
        (processEvent resources functionKey functionName st ⟨some arn⟩).queueHandlers
            = setProp st.queueHandlers q (some functionName)
        ∧ getProp (processEvent resources functionKey functionName st
            ⟨some arn⟩).queueHandlers q = some (some functionName)
        ∧ ∀ k, ¬ k = q →
            getProp (processEvent resources functionKey functionName st
              ⟨some arn⟩).queueHandlers k = getProp st.queueHandlers k)
      ∧ (∀ h, getProp st.queueHandlers q = some (some h) →
          (processEvent resources functionKey functionName st ⟨some arn⟩).queueHandlers
              = st.queueHandlers
          ∧ LogEntry.queueHasHandler q h
              ∈ (processEvent resources functionKey functionName st ⟨some arn⟩).log) := by
  intro resources fk fn st arn q hres
  constructor
  · intro hq
    have hkey : hasOwnProperty st.queueHandlers q = true := by
      rw [hasOwnProperty_eq_isSome_getProp, hq]
      rfl
    have hpe : processEvent resources fk fn st ⟨some arn⟩
        = { st with queueHandlers := setProp st.queueHandlers q (some fn) } := by
      simp only [processEvent, hres]
      rw [if_neg (not_not_intro hkey)]
      simp only [hq]
    refine ⟨by rw [hpe], ?_, ?_⟩
    · rw [hpe]
      show getProp (setProp st.queueHandlers q (some fn)) q = some (some fn)
      rw [getProp_setProp_self, hq]
      rfl
    · intro k hk
      rw [hpe]
      exact getProp_setProp_ne st.queueHandlers q k (some fn) hk
  · intro h hq
    have hkey : hasOwnProperty st.queueHandlers q = true := by
      rw [hasOwnProperty_eq_isSome_getProp, hq]
      rfl
    have hpe : processEvent resources fk fn st ⟨some arn⟩
        = { st with log := st.log ++ [.queueHasHandler q h] } := by
      simp only [processEvent, hres]
      rw [if_neg (not_not_intro hkey)]
      simp only [hq]
    exact ⟨by rw [hpe], by rw [hpe]; simp⟩

/-- C3 witness: a first binding assigns the handler and a second binding to
the same queue is rejected, at concrete inputs. -/
theorem C3_first_handler_wins_witness :
    ((processEvent [] "f1" "fn1" ⟨[("orders", none)], []⟩
        ⟨some (.str "a:orders")⟩).queueHandlers = [("orders", some "fn1")])
    ∧ ((processEvent [] "f2" "fn2" ⟨[("orders", some "fn1")], []⟩
        ⟨some (.str "a:orders")⟩).queueHandlers = [("orders", some "fn1")])
    ∧ LogEntry.queueHasHandler "orders" "fn1"
        ∈ (processEvent [] "f2" "fn2" ⟨[("orders", some "fn1")], []⟩
            ⟨some (.str "a:orders")⟩).log := by
  have h1 := (C3_first_handler_wins [] "f1" "fn1" ⟨[("orders", none)], []⟩
    (.str "a:orders") "orders" (by decide)).1 (by decide)
  have h2 := (C3_first_handler_wins [] "f2" "fn2" ⟨[("orders", some "fn1")], []⟩
    (.str "a:orders") "orders" (by decide)).2 "fn1" (by decide)
  exact ⟨by rw [h1.1]; decide, h2.1, h2.2⟩

/-- C4: declaring two queue resources with the same queue name registers
exactly one queue entry (created by the first declaration) and logs a
duplicate warning for the second, and a queue resource lacking the
`QueueName` property is reported with an error and not registered. -/
theorem C4_duplicate_queue_first_wins :
    ∀ (st : ResolveState) (n₁ n₂ n : String) (p₁ p₂ : ResourceProperties) (q : String)
      (r : Resource),
      (p₁.queueName = some q → p₂.queueName = some q →
        hasOwnProperty st.queueHandlers q = false →
        (([(n₁, ⟨"AWS::SQS::Queue", some p₁⟩), (n₂, ⟨"AWS::SQS::Queue", some p₂⟩)].foldl
            registerQueue st).queueHandlers = st.queueHandlers ++ [(q, none)]
        ∧ countKey ([(n₁, ⟨"AWS::SQS::Queue", some p₁⟩),
            (n₂, ⟨"AWS::SQS::Queue", some p₂⟩)].foldl registerQueue st).queueHandlers q = 1
        ∧ LogEntry.multipleQueues q
            ∈ ([(n₁, ⟨"AWS::SQS::Queue", some p₁⟩),
                (n₂, ⟨"AWS::SQS::Queue", some p₂⟩)].foldl registerQueue st).log))
      ∧ (r.type = "AWS::SQS::Queue" →
          (r.properties = none ∨ ∃ p, r.properties = some p ∧ p.queueName = none) →
          registerQueue st (n, r) = { st with log := st.log ++ [.queueMissingQueueName n] }) := by
  intro st n₁ n₂ n p₁ p₂ q r
  constructor
  · intro h1 h2 hk
    have e1 : registerQueue st (n₁, ⟨"AWS::SQS::Queue", some p₁⟩)
        = { st with queueHandlers := st.queueHandlers ++ [(q, none)] } := by
      simp only [registerQueue]
      rw [if_neg (not_not_intro rfl)]
      simp only [h1]
      rw [if_neg (by simp [hk])]
    have e2 : registerQueue { st with queueHandlers := st.queueHandlers ++ [(q, none)] }
          (n₂, ⟨"AWS::SQS::Queue", some p₂⟩)
        = { st with
            queueHandlers := st.queueHandlers ++ [(q, none)]
            log := st.log ++ [.multipleQueues q] } := by
      simp only [registerQueue]
      rw [if_neg (not_not_intro rfl)]
      simp only [h2]
      rw [if_pos (by rw [hasOwnProperty_append]; simp [hasOwnProperty])]
    refine ⟨?_, ?_, ?_⟩
    · rw [List.foldl_cons, List.foldl_cons, List.foldl_nil, e1, e2]
    · rw [List.foldl_cons, List.foldl_cons, List.foldl_nil, e1, e2]
      show countKey (st.queueHandlers ++ [(q, none)]) q = 1
      rw [countKey_append, countKey_eq_zero st.queueHandlers q hk]
      simp [countKey, List.filter_cons]
    · rw [List.foldl_cons, List.foldl_cons, List.foldl_nil, e1, e2]
      simp
  · intro ht hp
    rcases hp with hp | ⟨p, hp, hq0⟩
    · simp only [registerQueue]
      rw [if_neg (not_not_intro ht)]
      simp only [hp]
    · simp only [registerQueue]
      rw [if_neg (not_not_intro ht)]
      simp only [hp, hq0]

/-- C4 witness: two declarations of queue name `orders` and one queue
resource without `QueueName`, at concrete inputs. -/
theorem C4_duplicate_queue_first_wins_witness :
    (([("A", ⟨"AWS::SQS::Queue", some ⟨some "orders"⟩⟩),
        ("B", ⟨"AWS::SQS::Queue", some ⟨some "orders"⟩⟩)].foldl registerQueue
        ⟨[], []⟩).queueHandlers = [("orders", none)]
    ∧ countKey ([("A", ⟨"AWS::SQS::Queue", some ⟨some "orders"⟩⟩),
        ("B", ⟨"AWS::SQS::Queue", some ⟨some "orders"⟩⟩)].foldl registerQueue
        ⟨[], []⟩).queueHandlers "orders" = 1
    ∧ LogEntry.multipleQueues "orders"
        ∈ ([("A", ⟨"AWS::SQS::Queue", some ⟨some "orders"⟩⟩),
            ("B", ⟨"AWS::SQS::Queue", some ⟨some "orders"⟩⟩)].foldl registerQueue ⟨[], []⟩).log)
    ∧ registerQueue ⟨[], []⟩ ("T", ⟨"AWS::SQS::Queue", none⟩)
        = ⟨[], [.queueMissingQueueName "T"]⟩ := by
  have h := C4_duplicate_queue_first_wins ⟨[], []⟩ "A" "B" "T" ⟨some "orders"⟩
    ⟨some "orders"⟩ "orders" ⟨"AWS::SQS::Queue", none⟩
  have h1 := h.1 rfl rfl (by decide)
  exact ⟨⟨by rw [h1.1]; rfl, h1.2.1, h1.2.2⟩, h.2 rfl (Or.inl rfl)⟩

/-- C8: an indirect `Fn::GetAtt [name, "Arn"]` reference resolves to the
target resource's `QueueName` when present; a missing target resource or a
target without `QueueName` logs an error and the binding is skipped with no
assignment; any other reference shape is reported as an unknown format
(carrying the raw reference) and skipped. -/
theorem C8_indirect_reference_resolution :
    ∀ (resources : List (String × Resource)) (n : String) (st : ResolveState)
      (functionKey functionName : String),
      (∀ (r : Resource) (p : ResourceProperties) (q : String),
          lookupResource resources n = some r → r.properties = some p →
          p.queueName = some q →
          resolveArn resources (.getAtt [n, "Arn"]) = .ok q)
      ∧ (lookupResource resources n = none →
          resolveArn resources (.getAtt [n, "Arn"]) = .unknownResource n
          ∧ processEvent resources functionKey functionName st ⟨some (.getAtt [n, "Arn"])⟩
              = { st with log := st.log ++ [.unknownResource n] })
      ∧ (∀ r : Resource, lookupResource resources n = some r →
          (r.properties = none ∨ ∃ p, r.properties = some p ∧ p.queueName = none) →
          resolveArn resources (.getAtt [n, "Arn"]) = .missingQueueName n
          ∧ processEvent resources functionKey functionName st ⟨some (.getAtt [n, "Arn"])⟩
              = { st with log := st.log ++ [.resourceMissingQueueName n] })
      ∧ (∀ parts : List String, (∀ x, ¬ parts = [x, "Arn"]) →
          resolveArn resources (.getAtt parts) = .unknownFormat (.getAtt parts)
          ∧ processEvent resources functionKey functionName st ⟨some (.getAtt parts)⟩
              = { st with log := st.log ++ [.unknownArnFormat (.getAtt parts)] })
      ∧ (resolveArn resources .otherObject = .unknownFormat .otherObject
          ∧ processEvent resources functionKey functionName st ⟨some .otherObject⟩
              = { st with log := st.log ++ [.unknownArnFormat .otherObject] }) := by
  intro resources n st fk fn
  refine ⟨?_, ?_, ?_, ?_, ?_⟩
  · intro r p q hl hp hq
    simp only [resolveArn, if_true]
    simp only [hl, hp, hq]
  · intro hl
    have hres : resolveArn resources (.getAtt [n, "Arn"]) = .unknownResource n := by
      simp only [resolveArn, if_true]
      simp only [hl]
    exact ⟨hres, by simp only [processEvent, hres]⟩
  · intro r hl hp
    have hres : resolveArn resources (.getAtt [n, "Arn"]) = .missingQueueName n := by
      rcases hp with hp | ⟨p, hp, hq0⟩
      · simp only [resolveArn, if_true]
        simp only [hl, hp]
      · simp only [resolveArn, if_true]
        simp only [hl, hp, hq0]
    exact ⟨hres, by simp only [processEvent, hres]⟩
  · intro parts hparts
    have hres : resolveArn resources (.getAtt parts) = .unknownFormat (.getAtt parts) := by
      rcases parts with _ | ⟨a, _ | ⟨b, _ | ⟨c, rest⟩⟩⟩
      · rfl
      · rfl
      · by_cases hb : b = "Arn"
        · subst hb
          exact absurd rfl (hparts a)
        · simp only [resolveArn]
          rw [if_neg hb]
      · rfl
    exact ⟨hres, by simp only [processEvent, hres]⟩
  · exact ⟨rfl, rfl⟩

/-- C8 witness: all five reference shapes at concrete resources. -/
theorem C8_indirect_reference_resolution_witness :
    (resolveArn [("R", ⟨"AWS::SQS::Queue", some ⟨some "orders"⟩⟩),
        ("S", ⟨"AWS::SQS::Queue", none⟩)] (.getAtt ["R", "Arn"]) = .ok "orders")
    ∧ (resolveArn [("R", ⟨"AWS::SQS::Queue", some ⟨some "orders"⟩⟩),
        ("S", ⟨"AWS::SQS::Queue", none⟩)] (.getAtt ["Missing", "Arn"])
          = .unknownResource "Missing"
      ∧ processEvent [("R", ⟨"AWS::SQS::Queue", some ⟨some "orders"⟩⟩),
          ("S", ⟨"AWS::SQS::Queue", none⟩)] "f" "fn" ⟨[("orders", none)], []⟩
          ⟨some (.getAtt ["Missing", "Arn"])⟩
          = ⟨[("orders", none)], [.unknownResource "Missing"]⟩)
    ∧ (resolveArn [("R", ⟨"AWS::SQS::Queue", some ⟨some "orders"⟩⟩),
        ("S", ⟨"AWS::SQS::Queue", none⟩)] (.getAtt ["S", "Arn"]) = .missingQueueName "S"
      ∧ processEvent [("R", ⟨"AWS::SQS::Queue", some ⟨some "orders"⟩⟩),
          ("S", ⟨"AWS::SQS::Queue", none⟩)] "f" "fn" ⟨[("orders", none)], []⟩
          ⟨some (.getAtt ["S", "Arn"])⟩
          = ⟨[("orders", none)], [.resourceMissingQueueName "S"]⟩)
    ∧ (resolveArn [("R", ⟨"AWS::SQS::Queue", some ⟨some "orders"⟩⟩),
        ("S", ⟨"AWS::SQS::Queue", none⟩)] (.getAtt ["R"]) = .unknownFormat (.getAtt ["R"])
      ∧ processEvent [("R", ⟨"AWS::SQS::Queue", some ⟨some "orders"⟩⟩),
          ("S", ⟨"AWS::SQS::Queue", none⟩)] "f" "fn" ⟨[("orders", none)], []⟩
          ⟨some (.getAtt ["R"])⟩
          = ⟨[("orders", none)], [.unknownArnFormat (.getAtt ["R"])]⟩)
    ∧ (resolveArn [("R", ⟨"AWS::SQS::Queue", some ⟨some "orders"⟩⟩),
        ("S", ⟨"AWS::SQS::Queue", none⟩)] .otherObject = .unknownFormat .otherObject
      ∧ processEvent [("R", ⟨"AWS::SQS::Queue", some ⟨some "orders"⟩⟩),
          ("S", ⟨"AWS::SQS::Queue", none⟩)] "f" "fn" ⟨[("orders", none)], []⟩
          ⟨some .otherObject⟩
          = ⟨[("orders", none)], [.unknownArnFormat .otherObject]⟩) := by
  refine ⟨?_, ?_, ?_, ?_, ?_⟩
  · exact (C8_indirect_reference_resolution _ "R" ⟨[("orders", none)], []⟩ "f" "fn").1
      ⟨"AWS::SQS::Queue", some ⟨some "orders"⟩⟩ ⟨some "orders"⟩ "orders" (by decide) rfl rfl
  · exact (C8_indirect_reference_resolution _ "Missing" ⟨[("orders", none)], []⟩ "f" "fn").2.1
      (by decide)
  · exact (C8_indirect_reference_resolution _ "S" ⟨[("orders", none)], []⟩ "f" "fn").2.2.1
      ⟨"AWS::SQS::Queue", none⟩ (by decide) (Or.inl rfl)
  · exact (C8_indirect_reference_resolution _ "R" ⟨[("orders", none)], []⟩ "f" "fn").2.2.2.1
      ["R"] (fun x => by simp)
  · exact (C8_indirect_reference_resolution _ "R" ⟨[("orders", none)], []⟩ "f" "fn").2.2.2.2

end OfflineSqsInvoke
